import Mathlib

/-!
Verification of the YUI promise core (`src/promise/js/resolver.js`,
`src/promise/js/shim.js`, `src/promise/js/promise.js`) and the aggregate
combinator `Y.batch` (promise-batch module).

The embedding has two layers:

* a pure single-cell model (`RState.fulfill` / `RState.reject`) mirroring the
  `Resolver.fulfill` / `Resolver.reject` methods of `resolver.js`, with
  subscriber invocation abstracted as a notification trace;

* an operational machine (`Machine`, `runTask`, `exec`, `drainOne`) with a heap
  of resolver cells and a FIFO queue modelling the `Y.soon` scheduling hook.
  `Job.thenT` mirrors `Resolver.then`, `Job.fulfillT` / `Job.rejectT` mirror
  `fulfill` / `reject` (including the notify-before-clear ordering via
  `Job.settleEndT`), and `drainOne` mirrors running one queued thunk produced
  by `wrap` (the `try`/`catch` around the user callback, the bare
  `result && typeof result.then === 'function'` test, and the assimilation
  call `result.then(thenFullfill, thenReject)`).

User callbacks are abstracted as tags interpreted by an environment
`Env : Nat → Val → CbOutcome` giving each callback's pure behavior
(return a value or throw).
-/

namespace Yui

/-- `Resolver._status`: one of `'pending'`, `'fulfilled'`, `'rejected'`. -/
inductive Status where
  | pending
  | fulfilled
  | rejected
deriving DecidableEq, Repr

/-- JavaScript values, as far as the promise core inspects them.
`promise rid` is a `Y.Promise` whose resolver lives at heap index `rid`;
`resolverObj rid` is the `Resolver` instance itself (returned by the
chainable `fulfill`/`reject`); `badThenable e` is an object whose `then`
property accessor throws `e`; `plainObj` is a truthy object without a
callable `then`. -/
inductive Val where
  | undef
  | num (n : Nat)
  | str (s : String)
  | arr (vs : List Val)
  | promise (rid : Nat)
  | resolverObj (rid : Nat)
  | badThenable (e : Val)
  | plainObj
deriving Repr

/-- Outcome of invoking a user callback: it returns a value or throws. -/
inductive CbOutcome where
  | ret (v : Val)
  | thr (e : Val)
deriving Repr

/-- A producer capability bound to a concrete resolver: `Y.bind('fulfill', r)`
or `Y.bind('reject', r)` (the `thenFullfill` / `thenReject` closures). -/
inductive BoundAct where
  | fulfillOf (rid : Nat)
  | rejectOf (rid : Nat)
deriving DecidableEq, Repr

/-- A function that can appear as the `fn` wrapped by `wrap` in
`Resolver.then`: a user-supplied callback (abstracted by a tag), a bound
`fulfill`/`reject` capability (as used by assimilation, which passes
`thenFullfill`/`thenReject` as callbacks), or a `oneDone(i)` closure of
`Y.batch`. -/
inductive CbFun where
  | user (tag : Nat)
  | bound (a : BoundAct)
  | batchDone (i : Nat)
deriving DecidableEq, Repr

/-- An entry of `_fulfillSubs` / `_rejectSubs`: either `wrap(fn)` (closing
over the parent's promise and the `then`-child resolver) or the raw
`thenFullfill` / `thenReject` pushed when the callback is not a function. -/
inductive Sub where
  | wrapped (fn : CbFun) (parent : Nat) (child : Nat)
  | boundSub (a : BoundAct)
deriving DecidableEq, Repr

/-- State of one `Resolver`: `_fulfillSubs` / `_rejectSubs` (nullable arrays),
`_result` (undefined until first settlement) and `_status`. -/
structure RState where
  fulfillSubs : Option (List Sub)
  rejectSubs : Option (List Sub)
  result : Option Val
  status : Status
deriving Repr

/-- A fresh resolver as built by the `Resolver` constructor. -/
def freshR : RState :=
  { fulfillSubs := some [], rejectSubs := some [], result := none,
    status := Status.pending }

/-- `this._result`, as the value subscribers receive (`undefined` if unset). -/
def resultVal (r : RState) : Val :=
  r.result.getD Val.undef

/-- The pure single-cell rendering of `Resolver.fulfill` (resolver.js:43-58):
record the value only while pending, and unless already rejected notify the
fulfill subscribers with the stored result, clear the queues and become
fulfilled.  Subscriber invocation is returned as a trace of
(subscriber, argument) pairs in `_notify` order. -/
def RState.fulfill (r : RState) (v : Val) : RState × List (Sub × Val) :=
  let r1 := if r.status = Status.pending then { r with result := some v } else r
  if r1.status = Status.rejected then (r1, [])
  else
    ({ r1 with fulfillSubs := some [], rejectSubs := none,
               status := Status.fulfilled },
     (r1.fulfillSubs.getD []).map (fun s => (s, resultVal r1)))

/-- The pure single-cell rendering of `Resolver.reject` (resolver.js:70-85),
symmetric to `RState.fulfill`. -/
def RState.reject (r : RState) (v : Val) : RState × List (Sub × Val) :=
  let r1 := if r.status = Status.pending then { r with result := some v } else r
  if r1.status = Status.fulfilled then (r1, [])
  else
    ({ r1 with fulfillSubs := none, rejectSubs := some [],
               status := Status.rejected },
     (r1.rejectSubs.getD []).map (fun s => (s, resultVal r1)))

/-- Apply a sequence of external `fulfill`(true)/`reject`(false) calls. -/
def applyCalls (c : RState) (ops : List (Bool × Val)) : RState :=
  ops.foldl
    (fun c op => if op.1 then (RState.fulfill c op.2).1 else (RState.reject c op.2).1)
    c

/-- A user-callback invocation, as performed by the thunk body of `wrap`:
`fn.apply(promise, args)` — callback tag, the `this` value, the arguments. -/
structure Event where
  tag : Nat
  thisv : Val
  args : List Val
deriving Repr

/-- A thunk scheduled with `Y.soon` by `wrap(fn)`: the wrapped function,
the parent promise (`this` for the call), the `then`-child resolver
(`thenFullfill`/`thenReject` target), and the argument the subscriber got. -/
structure Sched where
  fn : CbFun
  parent : Nat
  child : Nat
  arg : Val
deriving Repr

/-- Shared mutable state of one `Y.batch` call: the `results` array (sparse),
the `remaining` counter, and the aggregate resolver. -/
structure BatchCtx where
  results : List (Option Val)
  remaining : Nat
  agg : Nat
deriving Repr

/-- The whole system: the heap of resolvers (index = id), the `Y.soon` FIFO
queue, at most one batch context, the log of user-callback invocations, and
exceptions that escaped a scheduled thunk uncaught. -/
structure Machine where
  heap : List RState
  soonQ : List Sched
  batch : Option BatchCtx
  events : List Event
  uncaught : List Val
deriving Repr

/-- Behaviors of the user callbacks, keyed by tag. -/
def Env : Type := Nat → Val → CbOutcome

/-- The empty machine. -/
def M0 : Machine := { heap := [], soonQ := [], batch := none, events := [], uncaught := [] }

/-- Read a resolver from the heap (out-of-range reads are unused don't-cares). -/
def getR (M : Machine) (rid : Nat) : RState :=
  M.heap.getD rid freshR

/-- Write a resolver back to the heap. -/
def setR (M : Machine) (rid : Nat) (r : RState) : Machine :=
  { M with heap := M.heap.set rid r }

/-- Allocate a fresh pending resolver (a `new Promise(...)` / `new Resolver`). -/
def addR (M : Machine) : Machine :=
  { M with heap := M.heap ++ [freshR] }

/-- JavaScript truthiness, for `result && typeof result.then === 'function'`. -/
def truthy : Val → Bool
  | Val.undef => false
  | Val.num n => n ≠ 0
  | Val.str s => s ≠ ""
  | _ => true

/-- Accessing `v.then`: yields the resolver id whose `then` it is when the
member is callable (both `Y.Promise` and `Resolver` expose `then`), `none`
when there is no callable `then`, and `.error e` when the access throws
(a throwing accessor, or a member access on `undefined`). -/
def thenAccess : Val → Except Val (Option Nat)
  | Val.promise rid => Except.ok (some rid)
  | Val.resolverObj rid => Except.ok (some rid)
  | Val.badThenable e => Except.error e
  | Val.undef => Except.error (Val.str "TypeError")
  | _ => Except.ok none

/-- `Promise.isPromise` (shim.js:48-59): `try { then = obj.then } catch (_) {}`
then `typeof then === 'function'` — a throwing access leaves `then`
undefined, so the value is reported as not a promise. -/
def isPromise (v : Val) : Bool :=
  match thenAccess v with
  | Except.ok (some _) => true
  | _ => false

/-- `Resolver.fulfill` returns `this` (resolver.js:57, `@chainable`). -/
def fulfillReturnValue (rid : Nat) : Val := Val.resolverObj rid

/-- `Resolver.reject` returns `this` (resolver.js:84, `@chainable`). -/
def rejectReturnValue (rid : Nat) : Val := Val.resolverObj rid

/-- One unit of synchronous work inside an API call.  `fulfillT`/`rejectT`
are calls to `Resolver.fulfill`/`Resolver.reject`; `settleEndT` is the tail
of those methods that runs after `_notify` returns (clear the queues, set
`_status`); `invokeT` is `subs[i](result)` inside `_notify`; `thenT` is a
`Resolver.then` call; `assimT` is the tail of the `wrap` thunk body applied
to the callback's return value. -/
inductive Job where
  | fulfillT (rid : Nat) (v : Val)
  | rejectT (rid : Nat) (v : Val)
  | settleEndT (rid : Nat) (fulfillSide : Bool)
  | invokeT (s : Sub) (arg : Val)
  | thenT (rid : Nat) (cb eb : Option CbFun)
  | assimT (v : Val) (child : Nat)
deriving Repr

/-- Run one job, returning the jobs it performs synchronously next (in call
order, ahead of whatever else was pending) and the updated machine.

* `fulfillT` (resolver.js:43-58): while pending store the result; unless
  rejected, invoke each current fulfill subscriber with the *stored* result,
  then (`settleEndT`) reset `_fulfillSubs` to `[]`, null out `_rejectSubs`
  and set `_status = 'fulfilled'`.  `rejectT` is symmetric.
* `invokeT` on a `wrap`ped subscriber only enqueues the thunk with `Y.soon`
  (resolver.js:137); on a raw `thenFullfill`/`thenReject` it calls the bound
  method synchronously.
* `thenT` (resolver.js:103-181): make the child resolver, push
  `wrap(callback)` or the raw bound capability onto `_fulfillSubs`/`_rejectSubs`
  when those arrays are non-null (`this._fulfillSubs || []` drops the push
  into a dummy array otherwise), and if already settled replay
  `this.fulfill(this._result)` / `this.reject(this._result)`.
* `assimT` (resolver.js:154-164): falsy or non-thenable results fulfill the
  child; a callable `then` triggers `result.then(thenFullfill, thenReject)`
  (both are functions, so they get wrapped inside that `then`); a throwing
  `then` access escapes the thunk uncaught. -/
def runTask (t : Job) (M : Machine) : List Job × Machine :=
  match t with
  | Job.fulfillT rid v =>
      let r := getR M rid
      let r1 := if r.status = Status.pending then { r with result := some v } else r
      if r1.status = Status.rejected then ([], setR M rid r1)
      else
        ((r1.fulfillSubs.getD []).map (fun s => Job.invokeT s (resultVal r1)) ++
           [Job.settleEndT rid true],
         setR M rid r1)
  | Job.rejectT rid v =>
      let r := getR M rid
      let r1 := if r.status = Status.pending then { r with result := some v } else r
      if r1.status = Status.fulfilled then ([], setR M rid r1)
      else
        ((r1.rejectSubs.getD []).map (fun s => Job.invokeT s (resultVal r1)) ++
           [Job.settleEndT rid false],
         setR M rid r1)
  | Job.settleEndT rid fulfillSide =>
      let r := getR M rid
      if fulfillSide then
        ([], setR M rid { r with fulfillSubs := some [], rejectSubs := none,
                                 status := Status.fulfilled })
      else
        ([], setR M rid { r with fulfillSubs := none, rejectSubs := some [],
                                 status := Status.rejected })
  | Job.invokeT (Sub.wrapped fn parent child) arg =>
      ([], { M with soonQ := M.soonQ ++ [⟨fn, parent, child, arg⟩] })
  | Job.invokeT (Sub.boundSub (BoundAct.fulfillOf c)) arg =>
      ([Job.fulfillT c arg], M)
  | Job.invokeT (Sub.boundSub (BoundAct.rejectOf c)) arg =>
      ([Job.rejectT c arg], M)
  | Job.thenT rid cb eb =>
      let child := M.heap.length
      let M1 := addR M
      let r := getR M1 rid
      let fsub := match cb with
        | some f => Sub.wrapped f rid child
        | none => Sub.boundSub (BoundAct.fulfillOf child)
      let rsub := match eb with
        | some f => Sub.wrapped f rid child
        | none => Sub.boundSub (BoundAct.rejectOf child)
      let r1 := { r with fulfillSubs := r.fulfillSubs.map (fun l => l ++ [fsub]),
                         rejectSubs := r.rejectSubs.map (fun l => l ++ [rsub]) }
      let M2 := setR M1 rid r1
      match r1.status with
      | Status.fulfilled => ([Job.fulfillT rid (resultVal r1)], M2)
      | Status.rejected => ([Job.rejectT rid (resultVal r1)], M2)
      | Status.pending => ([], M2)
  | Job.assimT v child =>
      if truthy v then
        match thenAccess v with
        | Except.error e => ([], { M with uncaught := M.uncaught ++ [e] })
        | Except.ok (some rid) =>
            ([Job.thenT rid (some (CbFun.bound (BoundAct.fulfillOf child)))
                          (some (CbFun.bound (BoundAct.rejectOf child)))], M)
        | Except.ok none => ([Job.fulfillT child v], M)
      else ([Job.fulfillT child v], M)

/-- Run jobs to completion with a fuel bound (each job costs one unit);
`none` when the fuel runs out. -/
def exec : Nat → List Job → Machine → Option Machine
  | _, [], M => some M
  | fuel + 1, t :: rest, M =>
      match runTask t M with
      | (newJobs, M1) => exec fuel (newJobs ++ rest) M1
  | 0, _ :: _, _ => none

/-- Dequeue and run one `Y.soon` thunk (the function scheduled by `wrap`,
resolver.js:137-165): log the user-callback invocation
`fn.apply(promise, args)`, convert a synchronous throw into
`thenReject(e)`, and otherwise hand the return value to the
assimilate-or-fulfill tail.  A bound `fulfill`/`reject` used as the callback
runs the method and then assimilates its chainable return value (`this`).
A `oneDone(i)` closure of `Y.batch` stores its result, decrements
`remaining`, and fulfills the aggregate when every input has fulfilled and
the aggregate is not already rejected; it returns `undefined`. -/
def drainOne (env : Env) (fuel : Nat) (M : Machine) : Option Machine :=
  match M.soonQ with
  | [] => some M
  | th :: rest =>
      let M1 : Machine := { M with soonQ := rest }
      match th.fn with
      | CbFun.user tag =>
          let M2 : Machine :=
            { M1 with events := M1.events ++ [⟨tag, Val.promise th.parent, [th.arg]⟩] }
          match env tag th.arg with
          | CbOutcome.thr e => exec fuel [Job.rejectT th.child e] M2
          | CbOutcome.ret v => exec fuel [Job.assimT v th.child] M2
      | CbFun.bound (BoundAct.fulfillOf r) =>
          exec fuel [Job.fulfillT r th.arg,
                     Job.assimT (fulfillReturnValue r) th.child] M1
      | CbFun.bound (BoundAct.rejectOf r) =>
          exec fuel [Job.rejectT r th.arg,
                     Job.assimT (rejectReturnValue r) th.child] M1
      | CbFun.batchDone i =>
          match M1.batch with
          | none => some M1
          | some b =>
              let results1 := b.results.set i (some th.arg)
              let rem1 := b.remaining - 1
              let M2 : Machine :=
                { M1 with batch := some { b with results := results1, remaining := rem1 } }
              if rem1 = 0 ∧ (getR M2 b.agg).status ≠ Status.rejected then
                exec fuel [Job.fulfillT b.agg (Val.arr (results1.map (fun o => o.getD Val.undef))),
                           Job.assimT Val.undef th.child] M2
              else
                exec fuel [Job.assimT Val.undef th.child] M2

/-- Run `n` scheduler turns. -/
def drainN (env : Env) (fuel : Nat) : Nat → Machine → Option Machine
  | 0, M => some M
  | n + 1, M => (drainOne env fuel M).bind (drainN env fuel n)

/-- Modelled from the spec: `Y.when` is not under src (only `Y.batch` calls
it); per spec §4.4 the aggregate combinator reuses the Chain Combinator's
subscription mechanics, so `Y.when(promiseInput, oneDone(i), reject)` is
modelled as subscribing the pair through `then(callback, errback)` on the
input promise. -/
def whenJob (p : Nat) (cb eb : CbFun) : Job :=
  Job.thenT p (some cb) (some eb)

/-- `Y.batch` (promise-batch) restricted to already-existing promise inputs
(given by resolver ids): allocate the aggregate promise, set up the shared
`results`/`remaining` context, and for each input `i` subscribe
`oneDone(i)` as callback and the aggregate's bound `reject` as errback. -/
def batchOp (fuel : Nat) (M : Machine) (inputs : List Nat) : Option Machine :=
  let agg := M.heap.length
  let M1 : Machine :=
    { addR M with
      batch := some { results := List.replicate inputs.length none,
                      remaining := inputs.length, agg := agg } }
  exec fuel
    (inputs.enum.map (fun ip => whenJob ip.2 (CbFun.batchDone ip.1)
       (CbFun.bound (BoundAct.rejectOf agg))))
    M1

/-- `Resolver.fulfill` as an API call on the machine. -/
def fulfillOp (fuel : Nat) (M : Machine) (rid : Nat) (v : Val) : Option Machine :=
  exec fuel [Job.fulfillT rid v] M

/-- `Resolver.reject` as an API call on the machine. -/
def rejectOp (fuel : Nat) (M : Machine) (rid : Nat) (v : Val) : Option Machine :=
  exec fuel [Job.rejectT rid v] M

/-- `Resolver.then` as an API call on the machine. -/
def thenOp (fuel : Nat) (M : Machine) (rid : Nat) (cb eb : Option CbFun) : Option Machine :=
  exec fuel [Job.thenT rid cb eb] M

/-- Environment where every user callback returns `undefined`. -/
def envU : Env := fun _ _ => CbOutcome.ret Val.undef

/-- Environment where every user callback returns the promise at heap id 1. -/
def env3 : Env := fun _ _ => CbOutcome.ret (Val.promise 1)

/-- Environment where every user callback throws `e`. -/
def env4 (e : Val) : Env := fun _ _ => CbOutcome.thr e

/-- Environment where every user callback returns an object whose `then`
accessor throws `e`. -/
def env8 (e : Val) : Env := fun _ _ => CbOutcome.ret (Val.badThenable e)

/-- Flattening scenario, first phase: parent promise 0 and future `F2` at
id 1, both pending; `then` on the parent registers a callback that returns
`F2`; the parent fulfills with `w` and the scheduler runs the callback.
The `then`-child is resolver 2. -/
def c3mid (w : Val) : Option Machine :=
  (thenOp 50 (addR (addR M0)) 0 (some (CbFun.user 0)) none).bind (fun m =>
  (fulfillOp 50 m 0 w).bind (fun m2 => drainN env3 50 1 m2))

/-- Flattening scenario, fulfill branch: afterwards `F2` fulfills with `v`
and the scheduler runs the assimilation subscriber. -/
def c3ful (w v : Val) : Option Machine :=
  (c3mid w).bind (fun m => (fulfillOp 50 m 1 v).bind (drainN env3 50 1))

/-- Flattening scenario, reject branch: afterwards `F2` rejects with `r`. -/
def c3rej (w r : Val) : Option Machine :=
  (c3mid w).bind (fun m => (rejectOp 50 m 1 r).bind (drainN env3 50 1))

/-- Throwing-callback scenario: parent promise 0, `then` registers a
callback that throws `e`, parent fulfills with `v`, scheduler runs it.
The `then`-child is resolver 1. -/
def c4run (v e : Val) : Option Machine :=
  (thenOp 50 (addR M0) 0 (some (CbFun.user 0)) none).bind (fun m =>
  (fulfillOp 50 m 0 v).bind (drainN (env4 e) 50 1))

/-- Throwing-errback scenario: parent rejects with `v`, the errback throws `e`. -/
def c4runE (v e : Val) : Option Machine :=
  (thenOp 50 (addR M0) 0 none (some (CbFun.user 0))).bind (fun m =>
  (rejectOp 50 m 0 v).bind (drainN (env4 e) 50 1))

/-- Ordering scenario: three callbacks (tags 0, 1, 2) registered via `then`
on pending promise 0 in that order, then `fulfill v`, a second `fulfill v2`,
a `reject r`, and three scheduler turns. -/
def c7run (v v2 r : Val) : Option Machine :=
  (exec 50 [Job.thenT 0 (some (CbFun.user 0)) none,
            Job.thenT 0 (some (CbFun.user 1)) none,
            Job.thenT 0 (some (CbFun.user 2)) none] (addR M0)).bind (fun m =>
  (fulfillOp 50 m 0 v).bind (fun m2 =>
  (fulfillOp 50 m2 0 v2).bind (fun m3 =>
  (rejectOp 50 m3 0 r).bind (drainN envU 50 3))))

/-- Throwing-`then`-accessor scenario: the callback registered on promise 0
returns an object whose `then` access throws `e`; parent fulfills with `w`
and the scheduler runs the callback.  The `then`-child is resolver 1. -/
def c8run (w e : Val) : Option Machine :=
  (thenOp 50 (addR M0) 0 (some (CbFun.user 0)) none).bind (fun m =>
  (fulfillOp 50 m 0 w).bind (drainN (env8 e) 50 1))

/-- Context scenario, fulfill side: `then(cb7, cb8)` on promise 0, then
`fulfill v` and one scheduler turn. -/
def c10f (v : Val) : Option Machine :=
  (thenOp 50 (addR M0) 0 (some (CbFun.user 7)) (some (CbFun.user 8))).bind (fun m =>
  (fulfillOp 50 m 0 v).bind (drainN envU 50 1))

/-- Context scenario, reject side. -/
def c10r (r : Val) : Option Machine :=
  (thenOp 50 (addR M0) 0 (some (CbFun.user 7)) (some (CbFun.user 8))).bind (fun m =>
  (rejectOp 50 m 0 r).bind (drainN envU 50 1))

/-- Context scenario, late subscription: promise 0 fulfills with `v` first,
then `then(cb7)` replays and one scheduler turn runs the callback. -/
def c10late (v : Val) : Option Machine :=
  (fulfillOp 50 (addR M0) 0 v).bind (fun m =>
  (thenOp 50 m 0 (some (CbFun.user 7)) none).bind (drainN envU 50 1))

/-- Aggregate scenario: two pending input promises 0 and 1, batched; the
aggregate resolver is 2. -/
def c6start : Option Machine := batchOp 30 (addR (addR M0)) [0, 1]

/-- Aggregate scenario after input 0 rejects with `r` and one scheduler
turn (the turn that runs the aggregate's wrapped `reject` errback). -/
def c6mid (env : Env) (r : Val) : Option Machine :=
  c6start.bind (fun m => (rejectOp 50 m 0 r).bind (drainN env 50 1))

/-- Aggregate scenario after, additionally, input 1 fulfills with `v` and two
more scheduler turns run (the second is the one that runs input 1's
`oneDone` closure). -/
def c6end (env : Env) (r v : Val) : Option Machine :=
  (c6mid env r).bind (fun m => (fulfillOp 50 m 1 v).bind (fun m2 =>
    (drainN env 50 1 m2).bind (drainN env 50 1)))

/-- Machine state reached by `c6mid` (input 0 rejected with `rv`, aggregate
resolver 2 already rejected, input 1 untouched). -/
def c6s1M (rv : Val) : Machine :=
  { heap := [{ fulfillSubs := none, rejectSubs := some [], result := some (rv), status := Status.rejected }, { fulfillSubs := some [Sub.wrapped (CbFun.batchDone 1) 1 4], rejectSubs := some [Sub.wrapped (CbFun.bound (BoundAct.rejectOf 2)) 1 4], result := none, status := Status.pending }, { fulfillSubs := none, rejectSubs := some [], result := some (rv), status := Status.rejected }, { fulfillSubs := some [], rejectSubs := some [], result := none, status := Status.pending }, { fulfillSubs := some [], rejectSubs := some [], result := none, status := Status.pending }, { fulfillSubs := some [], rejectSubs := some [], result := none, status := Status.pending }], soonQ := [{ fn := CbFun.bound (BoundAct.rejectOf 3), parent := 2, child := 5, arg := rv }], batch := some { results := [none, none], remaining := 2, agg := 2 }, events := [], uncaught := [] }


/-- `c6mid` computes to `c6s1M r`: the aggregate is already rejected with the
first rejection reason while input 1 is still pending. -/
theorem c6mid_eq (env : Env) (r : Val) : c6mid env r = some (c6s1M r) := rfl

/-- Machine state after input 1 fulfills with `vv`: its `oneDone` thunk is
queued behind the pending cascade thunk. -/
def c6aM (rv vv : Val) : Machine :=
  { heap := [{ fulfillSubs := none, rejectSubs := some [], result := some (rv), status := Status.rejected }, { fulfillSubs := some [], rejectSubs := none, result := some (vv), status := Status.fulfilled }, { fulfillSubs := none, rejectSubs := some [], result := some (rv), status := Status.rejected }, { fulfillSubs := some [], rejectSubs := some [], result := none, status := Status.pending }, { fulfillSubs := some [], rejectSubs := some [], result := none, status := Status.pending }, { fulfillSubs := some [], rejectSubs := some [], result := none, status := Status.pending }], soonQ := [{ fn := CbFun.bound (BoundAct.rejectOf 3), parent := 2, child := 5, arg := rv }, { fn := CbFun.batchDone 1, parent := 1, child := 4, arg := vv }], batch := some { results := [none, none], remaining := 2, agg := 2 }, events := [], uncaught := [] }


/-- `fulfill` on input 1 only enqueues its `oneDone` thunk. -/
theorem c6a_eq (r v : Val) : fulfillOp 50 (c6s1M r) 1 v = some (c6aM r v) := rfl

/-- Machine state one scheduler turn later (a chainable-return cascade turn;
the aggregate is untouched). -/
def c6bM (rv vv : Val) : Machine :=
  { heap := [{ fulfillSubs := none, rejectSubs := some [], result := some (rv), status := Status.rejected }, { fulfillSubs := some [], rejectSubs := none, result := some (vv), status := Status.fulfilled }, { fulfillSubs := none, rejectSubs := some [], result := some (rv), status := Status.rejected }, { fulfillSubs := none, rejectSubs := some [], result := some (rv), status := Status.rejected }, { fulfillSubs := some [], rejectSubs := some [], result := none, status := Status.pending }, { fulfillSubs := some [], rejectSubs := some [], result := none, status := Status.pending }, { fulfillSubs := some [], rejectSubs := some [], result := none, status := Status.pending }], soonQ := [{ fn := CbFun.batchDone 1, parent := 1, child := 4, arg := vv }, { fn := CbFun.bound (BoundAct.rejectOf 5), parent := 3, child := 6, arg := rv }], batch := some { results := [none, none], remaining := 2, agg := 2 }, events := [], uncaught := [] }


/-- One scheduler turn from `c6aM`. -/
theorem c6b_eq (env : Env) (r v : Val) : drainN env 50 1 (c6aM r v) = some (c6bM r v) := rfl

/-- Machine state after the turn that runs input 1's `oneDone` closure: the
sibling's result is recorded in the batch context but discarded — the
aggregate's status and stored reason are unchanged. -/
def c6cM (rv vv : Val) : Machine :=
  { heap := [{ fulfillSubs := none, rejectSubs := some [], result := some (rv), status := Status.rejected }, { fulfillSubs := some [], rejectSubs := none, result := some (vv), status := Status.fulfilled }, { fulfillSubs := none, rejectSubs := some [], result := some (rv), status := Status.rejected }, { fulfillSubs := none, rejectSubs := some [], result := some (rv), status := Status.rejected }, { fulfillSubs := some [], rejectSubs := none, result := some (Val.undef), status := Status.fulfilled }, { fulfillSubs := some [], rejectSubs := some [], result := none, status := Status.pending }, { fulfillSubs := some [], rejectSubs := some [], result := none, status := Status.pending }], soonQ := [{ fn := CbFun.bound (BoundAct.rejectOf 5), parent := 3, child := 6, arg := rv }], batch := some { results := [none, some (vv)], remaining := 1, agg := 2 }, events := [], uncaught := [] }

/-- One further scheduler turn from `c6bM` runs `oneDone(1)`. -/
theorem c6c_eq (env : Env) (r v : Val) : drainN env 50 1 (c6bM r v) = some (c6cM r v) := rfl

/-- Helper: once a cell has left `pending`, a further `fulfill` call changes
neither its status nor its stored result. -/
theorem fulfill_settled_stable (c : RState) (v : Val) (h : c.status ≠ Status.pending) :
    (RState.fulfill c v).1.status = c.status ∧ (RState.fulfill c v).1.result = c.result := by
  cases hs : c.status with
  | pending => exact absurd hs h
  | fulfilled => simp [RState.fulfill, hs]
  | rejected => simp [RState.fulfill, hs]

/-- Helper: once a cell has left `pending`, a further `reject` call changes
neither its status nor its stored result. -/
theorem reject_settled_stable (c : RState) (v : Val) (h : c.status ≠ Status.pending) :
    (RState.reject c v).1.status = c.status ∧ (RState.reject c v).1.result = c.result := by
  cases hs : c.status with
  | pending => exact absurd hs h
  | fulfilled => simp [RState.reject, hs]
  | rejected => simp [RState.reject, hs]

/-- Helper: any sequence of calls on a settled cell preserves status and
result. -/
theorem applyCalls_settled_stable (l : List (Bool × Val)) :
    ∀ (c : RState), c.status ≠ Status.pending →
      (applyCalls c l).status = c.status ∧ (applyCalls c l).result = c.result := by
  induction l with
  | nil => exact fun c _ => ⟨rfl, rfl⟩
  | cons op rest ih =>
      intro c h
      have hstep :
          (if op.1 then (RState.fulfill c op.2).1 else (RState.reject c op.2).1).status = c.status ∧
          (if op.1 then (RState.fulfill c op.2).1 else (RState.reject c op.2).1).result = c.result := by
        by_cases hop : op.1
        · simpa [hop] using fulfill_settled_stable c op.2 h
        · simpa [hop] using reject_settled_stable c op.2 h
      have h2 : (if op.1 then (RState.fulfill c op.2).1 else (RState.reject c op.2).1).status
          ≠ Status.pending := by rw [hstep.1]; exact h
      have := ih _ h2
      refine ⟨?_, ?_⟩
      · calc (applyCalls c (op :: rest)).status
            = (applyCalls _ rest).status := rfl
          _ = _ := this.1
          _ = c.status := hstep.1
      · calc (applyCalls c (op :: rest)).result
            = (applyCalls _ rest).result := rfl
          _ = _ := this.2
          _ = c.result := hstep.2

/-- C1: on any cell created pending (whatever its subscriber queues), for any
nonempty sequence of `fulfill`/`reject` calls, after every nonempty prefix the
stored result is the first call's argument and the status is the first call's
terminal state — so the state never returns to pending and never crosses
between fulfilled and rejected, and `getResult()` reflects only the first
call's argument forever after. -/
theorem c1_at_most_once_settlement (fs rs : Option (List Sub)) (res : Option Val)
    (first : Bool × Val) (rest : List (Bool × Val)) (n : Nat) :
    (applyCalls ⟨fs, rs, res, Status.pending⟩ ((first :: rest).take (n + 1))).result
        = some first.2 ∧
    (applyCalls ⟨fs, rs, res, Status.pending⟩ ((first :: rest).take (n + 1))).status
        = (if first.1 then Status.fulfilled else Status.rejected) := by
  obtain ⟨b, v⟩ := first
  rw [List.take_succ_cons]
  have hcons : applyCalls ⟨fs, rs, res, Status.pending⟩ ((b, v) :: rest.take n)
      = applyCalls (if b then (RState.fulfill ⟨fs, rs, res, Status.pending⟩ v).1
                    else (RState.reject ⟨fs, rs, res, Status.pending⟩ v).1) (rest.take n) := rfl
  cases b with
  | true =>
      have h1 : (RState.fulfill ⟨fs, rs, res, Status.pending⟩ v).1
          = ⟨some [], none, some v, Status.fulfilled⟩ := rfl
      rw [hcons, if_pos rfl, h1]
      have := applyCalls_settled_stable (rest.take n)
        ⟨some [], none, some v, Status.fulfilled⟩ (by simp)
      exact ⟨this.2, by rw [this.1]; rfl⟩
  | false =>
      have h1 : (RState.reject ⟨fs, rs, res, Status.pending⟩ v).1
          = ⟨none, some [], some v, Status.rejected⟩ := rfl
      rw [hcons, if_neg (by simp), h1]
      have := applyCalls_settled_stable (rest.take n)
        ⟨none, some [], some v, Status.rejected⟩ (by simp)
      exact ⟨this.2, by rw [this.1]; rfl⟩

/-- Helper: no job ever appends to the user-invocation log; synchronous work
only updates cells and enqueues thunks. -/
theorem runTask_events (t : Job) (M : Machine) : (runTask t M).2.events = M.events := by
  cases t with
  | fulfillT rid v => dsimp only [runTask]; split <;> split <;> rfl
  | rejectT rid v => dsimp only [runTask]; split <;> split <;> rfl
  | settleEndT rid side => dsimp only [runTask]; split <;> rfl
  | invokeT s arg =>
      rcases s with ⟨fn, parent, child⟩ | a
      · rfl
      · cases a <;> rfl
  | thenT rid cb eb => dsimp only [runTask]; split <;> rfl
  | assimT v child =>
      dsimp only [runTask]
      split
      · split <;> rfl
      · rfl

/-- Helper: running any jobs to completion never appends to the
user-invocation log. -/
theorem exec_events (fuel : Nat) : ∀ (ts : List Job) (M M' : Machine),
    exec fuel ts M = some M' → M'.events = M.events := by
  induction fuel with
  | zero =>
      intro ts M M' h
      cases ts with
      | nil => rw [← Option.some.inj h]
      | cons t rest => exact absurd h (by simp [exec])
  | succ n ih =>
      intro ts M M' h
      cases ts with
      | nil => rw [← Option.some.inj h]
      | cons t rest =>
          simp only [exec] at h
          exact (ih _ _ _ h).trans (runTask_events t M)

/-- C2: the synchronous extent of a `fulfill`, `reject` or `then` call never
invokes a user-supplied callback or errback — the user-invocation log is
unchanged when the call returns, even when `then` finds the cell already
settled and replays the stored result.  User callbacks execute only when the
external scheduling hook later runs the thunk that `wrap` passed to
`Y.soon`. -/
theorem c2_no_sync_reentrancy (fuel : Nat) (M M' : Machine) (rid : Nat) (v : Val)
    (cb eb : Option CbFun) :
    (fulfillOp fuel M rid v = some M' → M'.events = M.events) ∧
    (rejectOp fuel M rid v = some M' → M'.events = M.events) ∧
    (thenOp fuel M rid cb eb = some M' → M'.events = M.events) :=
  ⟨fun h => exec_events fuel _ _ _ h, fun h => exec_events fuel _ _ _ h,
   fun h => exec_events fuel _ _ _ h⟩

/-- Witness for C2: a concrete already-subscribed pending cell is fulfilled;
the call succeeds and the user-invocation log is untouched. -/
theorem c2_no_sync_reentrancy_witness :
    (thenOp 50 (addR M0) 0 (some (CbFun.user 0)) none).bind
        (fun m => fulfillOp 50 m 0 (Val.num 1))
      = some (((thenOp 50 (addR M0) 0 (some (CbFun.user 0)) none).bind
        (fun m => fulfillOp 50 m 0 (Val.num 1))).getD M0) ∧
    (((thenOp 50 (addR M0) 0 (some (CbFun.user 0)) none).bind
        (fun m => fulfillOp 50 m 0 (Val.num 1))).getD M0).events
      = ((thenOp 50 (addR M0) 0 (some (CbFun.user 0)) none).getD M0).events := by
  refine ⟨rfl, ?_⟩
  exact (c2_no_sync_reentrancy 50 ((thenOp 50 (addR M0) 0 (some (CbFun.user 0)) none).getD M0)
    (((thenOp 50 (addR M0) 0 (some (CbFun.user 0)) none).bind
        (fun m => fulfillOp 50 m 0 (Val.num 1))).getD M0) 0 (Val.num 1) none none).1 rfl

set_option maxHeartbeats 2000000

/-- C3: a fulfillment callback returning a future `F2` does not settle the
`then`-child immediately with `F2` itself (the child is still pending after
the callback has run); once `F2` fulfills with `v` the child fulfills with
`v`, and once `F2` rejects with `r` the child rejects with `r`. -/
theorem c3_flattening (w v r : Val) :
    (c3mid w).map (fun m => (getR m 2).status) = some Status.pending ∧
    (c3ful w v).map (fun m => ((getR m 2).status, (getR m 2).result))
      = some (Status.fulfilled, some v) ∧
    (c3rej w r).map (fun m => ((getR m 2).status, (getR m 2).result))
      = some (Status.rejected, some r) :=
  ⟨rfl, rfl, rfl⟩

/-- C4: a callback (or errback) that throws `e` makes the `then`-child
reject with exactly `e`, and the exception does not escape the scheduled
thunk (the uncaught list stays empty). -/
theorem c4_exception_unification (v e : Val) :
    (c4run v e).map (fun m => ((getR m 1).status, (getR m 1).result, m.uncaught))
      = some (Status.rejected, some e, []) ∧
    (c4runE v e).map (fun m => ((getR m 1).status, (getR m 1).result, m.uncaught))
      = some (Status.rejected, some e, []) :=
  ⟨rfl, rfl⟩

/-- C6: in `batch` of two pending promises, when input 0 rejects with `r` the
aggregate (resolver 2) rejects with `r` as soon as the rejection is observed,
while the sibling input 1 is still pending; when input 1 later fulfills with
`v`, its result is discarded — the aggregate's terminal state and stored
reason are unchanged. -/
theorem c6_batch_short_circuit (env : Env) (r v : Val) :
    (c6mid env r).map (fun m => ((getR m 2).status, (getR m 2).result, (getR m 1).status))
      = some (Status.rejected, some r, Status.pending) ∧
    (c6end env r v).map (fun m => ((getR m 2).status, (getR m 2).result))
      = some (Status.rejected, some r) := by
  constructor
  · rw [c6mid_eq]; rfl
  · show ((c6mid env r).bind _).map _ = _
    rw [c6mid_eq, Option.some_bind, c6a_eq, Option.some_bind, c6b_eq, Option.some_bind, c6c_eq]
    rfl

/-- C10: whenever a user callback or errback registered via `then` runs, it
is applied with the parent's promise object as `this` and the settled result
as its single argument — on the fulfill path, the reject path, and for a
late subscription on an already-fulfilled cell. -/
theorem c10_callback_context (v r : Val) :
    (c10f v).map Machine.events = some [⟨7, Val.promise 0, [v]⟩] ∧
    (c10r r).map Machine.events = some [⟨8, Val.promise 0, [r]⟩] ∧
    (c10late v).map Machine.events = some [⟨7, Val.promise 0, [v]⟩] :=
  ⟨rfl, rfl, rfl⟩

/-- Helper: a machine with an empty scheduler queue is a fixed point of any
number of scheduler turns. -/
theorem drainN_of_no_soon (env : Env) (fuel : Nat) (M : Machine) (h : M.soonQ = []) :
    ∀ n, drainN env fuel n M = some M := by
  intro n
  induction n with
  | zero => rfl
  | succ k ih =>
      show (drainOne env fuel M).bind (drainN env fuel k) = some M
      have h1 : drainOne env fuel M = some M := by
        unfold drainOne
        rw [h]
      rw [h1, Option.some_bind]
      exact ih

/-- C8 counterexample: a callback returns an object whose `then` accessor
throws `"boom"`.  `wrap`'s assimilation test (resolver.js:156) accesses
`result.then` without a guard, so the exception escapes the scheduled thunk
(the uncaught list is nonempty) and the child cell is left pending — it is
not treated as "not a future" (which would have fulfilled the child with the
value and left nothing uncaught). -/
theorem c8_counterexample :
    (c8run (Val.num 1) (Val.str "boom")).map
        (fun m => (m.uncaught, (getR m 1).status, (getR m 1).result))
      = some ([Val.str "boom"], Status.pending, none) ∧
    ([Val.str "boom"] : List Val) ≠ [] :=
  ⟨rfl, fun h => List.noConfusion h⟩

/-- C8 amended: `Promise.isPromise` tolerates a throwing `then` access and
reports "not a promise", but the assimilation step in `wrap` does not guard
its `then` access: for every thrown value `e` the exception propagates out of
the scheduled callback body and the `then`-child stays pending. -/
theorem c8_then_access_amended (e w : Val) :
    isPromise (Val.badThenable e) = false ∧
    (c8run w e).map (fun m => (m.uncaught, (getR m 1).status, (getR m 1).result))
      = some ([e], Status.pending, none) :=
  ⟨rfl, rfl⟩

/-- C5 (code bug): `Y.batch()` with zero operations leaves the aggregate
promise pending forever — `fulfill(results)` is only ever called inside a
`oneDone` closure and no such closure exists, so no number of scheduler
turns settles it; the documentation ("resolved when all callbacks have
completed") and the spec say it should fulfill immediately with `[]`. -/
theorem c5_empty_batch_never_fulfills (env : Env) (n : Nat) :
    ((batchOp 30 M0 []).bind (drainN env 30 n)).map (fun m => (getR m 0).status)
      = some Status.pending := by
  have h : batchOp 30 M0 [] = some ((batchOp 30 M0 []).getD M0) := rfl
  rw [h, Option.some_bind]
  rw [drainN_of_no_soon env 30 ((batchOp 30 M0 []).getD M0) rfl n]
  rfl

/-- C9 counterexample: `fulfill` and `reject` do have a return value — the
source ends with `return this` (`@chainable`), so the call evaluates to the
`Resolver` instance, not `undefined`. -/
theorem c9_counterexample :
    fulfillReturnValue 0 = Val.resolverObj 0 ∧ rejectReturnValue 0 = Val.resolverObj 0 ∧
    Val.resolverObj 0 ≠ Val.undef :=
  ⟨rfl, rfl, fun h => Val.noConfusion h⟩

/-- C9 amended: `fulfill`/`reject` return the `Resolver` instance itself
(chainable).  On a cell settled to the opposite state they are a complete
no-op; on a cell settled to the same state they leave the status and stored
result unchanged and merely re-notify the current same-direction queue with
the original stored result (not the new argument). -/
theorem c9_settled_noop_amended (fs rs : Option (List Sub)) (res : Option Val)
    (v : Val) (rid : Nat) :
    fulfillReturnValue rid = Val.resolverObj rid ∧
    rejectReturnValue rid = Val.resolverObj rid ∧
    RState.fulfill ⟨fs, rs, res, Status.rejected⟩ v = (⟨fs, rs, res, Status.rejected⟩, []) ∧
    RState.reject ⟨fs, rs, res, Status.fulfilled⟩ v = (⟨fs, rs, res, Status.fulfilled⟩, []) ∧
    (RState.fulfill ⟨fs, rs, res, Status.fulfilled⟩ v).1.status = Status.fulfilled ∧
    (RState.fulfill ⟨fs, rs, res, Status.fulfilled⟩ v).1.result = res ∧
    (RState.fulfill ⟨fs, rs, res, Status.fulfilled⟩ v).2
      = (fs.getD []).map (fun s => (s, res.getD Val.undef)) ∧
    (RState.reject ⟨fs, rs, res, Status.rejected⟩ v).1.status = Status.rejected ∧
    (RState.reject ⟨fs, rs, res, Status.rejected⟩ v).1.result = res ∧
    (RState.reject ⟨fs, rs, res, Status.rejected⟩ v).2
      = (rs.getD []).map (fun s => (s, res.getD Val.undef)) :=
  ⟨rfl, rfl, rfl, rfl, rfl, rfl, rfl, rfl, rfl, rfl⟩

/-- C7: three callbacks registered in order `[0, 1, 2]` on the same pending
cell fire in exactly that order, each passed the first settled value `v`
(a second `fulfill v2` and a `reject r` change nothing), and each fires at
most once: after the three scheduler turns the queue is empty and any number
of further scheduler turns leaves the machine — in particular the invocation
log — unchanged. -/
theorem c7_subscriber_order (v v2 r : Val) :
    (c7run v v2 r).elim False (fun m =>
      m.events = [⟨0, Val.promise 0, [v]⟩, ⟨1, Val.promise 0, [v]⟩, ⟨2, Val.promise 0, [v]⟩] ∧
      m.soonQ = [] ∧
      ∀ n, drainN envU 50 n m = some m) := by
  refine ⟨rfl, rfl, ?_⟩
  exact drainN_of_no_soon envU 50 _ rfl

end Yui
